import Mathlib

/-!
Verification of the import-side reconciliation logic of the bucket
migration scripts (`bucketsJSON/importBuckets.py`).

The embedding models:
  * JSON-ish document values (`Value`, `Doc`);
  * Python `str()` rendering (`pyStr`) and `dict.get` (`pyGet`);
  * the Couchbase store as seen by the script: a list of bucket names
    plus, per bucket, an association list from document key to document
    (`Store`, `Col`);
  * the store's responses to the script's calls as explicit oracles
    (`UpsertResp`, `BucketResp`, bucket-access oracle), so that every
    `except` branch of the script is reachable in the model.  The
    `upsert` KV primitive that the script actually calls is
    create-or-replace: on a well-behaved store it always succeeds and
    overwrites, and never signals `DocumentExistsException` (that
    exception belongs to the strict `insert` primitive); the all-`ok`
    oracle instantiation used in scenario theorems reflects this;
  * `uuid.uuid4()` as a token stream `tok : Nat → String` threaded by a
    counter `g` (two distinct process runs draw from streams with
    disjoint ranges);
  * console output as a list of the exact printed lines.

`time.sleep` calls have no observable effect in the model and are
dropped.  File loading (`load_json_data`) is plain I/O outside the core
and is modelled by passing the already-loaded `buckets_data` list.
-/

/-- A JSON-like Python value.  Objects and arrays are inlined as cons
chains (`objCons k v rest` is the dict whose first item maps `k` to `v`
and whose remaining items are `rest`), so the type is not a nested
inductive and decidable equality derives. -/
inductive Value where
  | null
  | str (s : String)
  | int (n : Int)
  | bool (b : Bool)
  | objNil
  | objCons (key : String) (v : Value) (rest : Value)
  | arrNil
  | arrCons (v : Value) (rest : Value)
deriving DecidableEq, Repr

/-- A source document: one JSON object, as an ordered field map
(Python `dict` preserves insertion order). -/
abbrev Doc := List (String × Value)

mutual

/-- Python `repr()` of a value (used by `str()` on dicts and lists).
Quote escaping inside strings is not modelled; no script branch depends
on it. -/
def pyRepr : Value → String
  | Value.null => "None"
  | Value.str s => "\x27" ++ s ++ "\x27"
  | Value.int n => toString n
  | Value.bool true => "True"
  | Value.bool false => "False"
  | Value.objNil => "\x7b\x7d"
  | Value.objCons k v rest =>
      "\x7b" ++ String.intercalate ", "
        (("\x27" ++ k ++ "\x27: " ++ pyRepr v) :: fieldStrs rest) ++ "\x7d"
  | Value.arrNil => "[]"
  | Value.arrCons v rest =>
      "[" ++ String.intercalate ", " (pyRepr v :: elemStrs rest) ++ "]"

/-- Rendered remaining items of a dict chain. -/
def fieldStrs : Value → List String
  | Value.objCons k v rest => ("\x27" ++ k ++ "\x27: " ++ pyRepr v) :: fieldStrs rest
  | _ => []

/-- Rendered remaining items of a list chain. -/
def elemStrs : Value → List String
  | Value.arrCons v rest => pyRepr v :: elemStrs rest
  | _ => []

end

/-- Python `str()` of a value: a string renders as itself, anything else
as its `repr` (`str(None) = "None"`, `str(True) = "True"`, ...). -/
def pyStr : Value → String
  | Value.str s => s
  | v => pyRepr v

/-- First-match association-list lookup. -/
def alookup {α β : Type} [DecidableEq α] : List (α × β) → α → Option β
  | [], _ => none
  | (a, b) :: rest, k => if a = k then some b else alookup rest k

/-- Python `doc.get(key, default)`: the stored value when the key is
present (even when that value is `None`), the default otherwise. -/
def pyGet (doc : Doc) (k : String) (dflt : Value) : Value :=
  match alookup doc k with
  | some v => v
  | none => dflt

/-- The contents of one bucket's `_default` collection: document key
to document, in insertion order. -/
abbrev Col := List (Value × Doc)

/-- `colUpsert col k d`: the KV `upsert` (create-or-replace) primitive —
replace the value at the first occurrence of key `k`, or append a new
entry when `k` is absent. -/
def colUpsert : Col → Value → Doc → Col
  | [], k, d => [(k, d)]
  | (k2, d2) :: rest, k, d =>
      if k2 = k then (k, d) :: rest else (k2, d2) :: colUpsert rest k d

/-- Lookup of the document stored under a key. -/
def colLookup : Col → Value → Option Doc
  | [], _ => none
  | (k2, d2) :: rest, k => if k2 = k then some d2 else colLookup rest k

/-- The cluster as the script sees it: the existing bucket names and the
per-bucket document data. -/
structure Store where
  buckets : List String
  data : List (String × Col)
deriving DecidableEq, Repr

/-- The collection of a bucket (empty when the bucket holds no data yet). -/
def storeGet (st : Store) (name : String) : Col :=
  match alookup st.data name with
  | some c => c
  | none => []

/-- Replace (or create) the collection of a bucket. -/
def setColData : List (String × Col) → String → Col → List (String × Col)
  | [], name, c => [(name, c)]
  | (n, c2) :: rest, name, c =>
      if n = name then (name, c) :: rest else (n, c2) :: setColData rest name c

/-- Store with the given bucket's collection replaced. -/
def setCol (st : Store) (name : String) (c : Col) : Store :=
  { st with data := setColData st.data name c }

/-- Store response to one `collection.upsert` call: success,
`DocumentExistsException`, or any other exception with its message. -/
inductive UpsertResp where
  | ok
  | docExists
  | err (msg : String)
deriving DecidableEq, Repr

/-- Per-document write outcome as reported by the script's log lines
(`[SUCCESS]` / `[WARNING] ... already exists` / `[ERROR]`). -/
inductive WriteOutcome where
  | created
  | already_exists
  | failed
deriving DecidableEq, Repr

/-- Key resolution for one document, from the body of
`insert_documents`: for bucket `UsersBDD` use the `email` field verbatim
when present, else a fresh token; for other buckets stringify
`doc.get("id", doc.get("uuid", doc.get("_id", None)))` and fall back to
a fresh token when that string is empty or `"None"`.  Returns the key,
the advanced token counter, and the printed lines. -/
def resolve_key (tok : Nat → String) (g : Nat) (bucket_name : String)
    (doc : Doc) : Value × Nat × List String :=
  if bucket_name = "UsersBDD" then
    match alookup doc "email" with
    | some v =>
        (v, g, ["[INFO] Using email as ID for user: " ++ pyStr v])
    | none =>
        (Value.str (tok g), g + 1,
          ["[WARNING] User without email, generated ID: " ++ tok g])
  else
    let doc_id := pyStr (pyGet doc "id" (pyGet doc "uuid" (pyGet doc "_id" Value.null)))
    if doc_id = "" ∨ doc_id = "None" then
      (Value.str (tok g), g + 1,
        ["[INFO] Generated a new ID for document in " ++ bucket_name ++ ": " ++ tok g])
    else
      (Value.str doc_id, g, [])

/-- One `collection.upsert(doc_id, doc)` call with its `try`/`except`
handling: success stores the document (create-or-replace) and logs
`[SUCCESS]`; `DocumentExistsException` logs a `[WARNING]` and leaves the
collection unchanged; any other exception logs `[ERROR]` with the bucket
name and message and leaves the collection unchanged. -/
def write_doc (resp : UpsertResp) (col : Col) (key : Value) (doc : Doc)
    (bucket_name : String) : Col × WriteOutcome × List String :=
  match resp with
  | UpsertResp.ok =>
      (colUpsert col key doc, WriteOutcome.created,
        ["[SUCCESS] Document inserted in " ++ bucket_name ++ " with ID: " ++ pyStr key])
  | UpsertResp.docExists =>
      (col, WriteOutcome.already_exists,
        ["[WARNING] Document with ID " ++ pyStr key ++ " already exists."])
  | UpsertResp.err m =>
      (col, WriteOutcome.failed,
        ["[ERROR] Error during insertion in " ++ bucket_name ++ ": " ++ m])

/-- Result of the per-document loop of `insert_documents`. -/
structure LoopRes where
  col : Col
  g : Nat
  w : Nat
  outcomes : List WriteOutcome
  logs : List String
deriving DecidableEq, Repr

/-- The `for doc in documents` loop of `insert_documents`: resolve each
document's key, then attempt the upsert; `g` threads the token counter
and `w` indexes the store's response to each successive write. -/
def insertLoop (tok : Nat → String) (resp : Nat → UpsertResp)
    (bucket_name : String) :
    Col → Nat → Nat → List Doc → LoopRes
  | col, g, w, [] => ⟨col, g, w, [], []⟩
  | col, g, w, doc :: rest =>
      let r := resolve_key tok g bucket_name doc
      let s := write_doc (resp w) col r.1 doc bucket_name
      let t := insertLoop tok resp bucket_name s.1 r.2.1 (w + 1) rest
      ⟨t.col, t.g, t.w, s.2.1 :: t.outcomes, r.2.2 ++ s.2.2 ++ t.logs⟩

/-- Result of `insert_documents`. -/
structure InsRes where
  store : Store
  g : Nat
  w : Nat
  outcomes : List WriteOutcome
  logs : List String
deriving DecidableEq, Repr

/-- `insert_documents(cluster, bucket_name, documents)`: the outer `try`
opens the bucket and its `_default` collection — when that raises
(oracle `bucketAcc` returns a message) the whole collection is skipped
with a single `[ERROR]` line; otherwise every document is processed by
`insertLoop`. -/
def insert_documents (tok : Nat → String) (resp : Nat → UpsertResp)
    (bucketAcc : String → Option String) (st : Store) (g w : Nat)
    (bucket_name : String) (documents : List Doc) : InsRes :=
  match bucketAcc bucket_name with
  | some m =>
      ⟨st, g, w, [],
        ["[ERROR] Unable to access bucket \x27" ++ bucket_name ++ "\x27: " ++ m]⟩
  | none =>
      let r := insertLoop tok resp bucket_name (storeGet st bucket_name) g w documents
      ⟨setCol st bucket_name r.col, r.g, r.w, r.outcomes, r.logs⟩

/-- Store response to one `create_bucket` interaction: success,
`BucketAlreadyExistsException` raised by a concurrent create, or any
other exception (also covering a failing `get_all_buckets` listing). -/
inductive BucketResp where
  | ok
  | alreadyExists
  | err (msg : String)
deriving DecidableEq, Repr

/-- Provisioning outcome as reported by the script's log lines. -/
inductive ProvisionOutcome where
  | created
  | already_exists
  | failed
deriving DecidableEq, Repr

/-- Result of `create_bucket`. -/
structure ProvRes where
  st : Store
  outcome : ProvisionOutcome
  logs : List String
deriving DecidableEq, Repr

/-- `create_bucket(cluster, bucket_name)`: list the existing buckets; if
the name is absent issue the create (100 MB quota, flush enabled) and
wait the settle delay; a pre-existing name or a concurrent-create
exception logs a `[WARNING]`; any other exception is caught and logged
as `[ERROR]`.  Total — no path raises out of the function. -/
def create_bucket (resp : BucketResp) (st : Store) (bucket_name : String) :
    ProvRes :=
  match resp with
  | BucketResp.err m =>
      ⟨st, ProvisionOutcome.failed,
        ["[ERROR] Error creating bucket \x27" ++ bucket_name ++ "\x27: " ++ m]⟩
  | _ =>
      if bucket_name ∈ st.buckets then
        ⟨st, ProvisionOutcome.already_exists,
          ["[WARNING] Bucket \x27" ++ bucket_name ++ "\x27 already exists."]⟩
      else
        match resp with
        | BucketResp.alreadyExists =>
            ⟨st, ProvisionOutcome.already_exists,
              ["[WARNING] Bucket \x27" ++ bucket_name ++ "\x27 already exists."]⟩
        | _ =>
            ⟨{ st with buckets := st.buckets ++ [bucket_name] },
              ProvisionOutcome.created,
              ["[SUCCESS] Bucket \x27" ++ bucket_name ++ "\x27 created successfully."]⟩

/-- ADDITIONAL_BUCKETS from the script. -/
def ADDITIONAL_BUCKETS : List String := ["FavoritesBDD", "SearchHistoryBDD", "CommentsBDD"]

/-- Result of a run section (store, counters, printed lines). -/
structure RunRes where
  store : Store
  g : Nat
  w : Nat
  logs : List String
deriving DecidableEq, Repr

/-- The main loop of the script: for every loaded `(bucket_name,
documents)` pair, `create_bucket` then `insert_documents`. -/
def mainLoop (tok : Nat → String) (resp : Nat → UpsertResp)
    (bResp : String → BucketResp) (bucketAcc : String → Option String) :
    Store → Nat → Nat → List (String × List Doc) → RunRes
  | st, g, w, [] => ⟨st, g, w, []⟩
  | st, g, w, (bucket_name, documents) :: rest =>
      let c := create_bucket (bResp bucket_name) st bucket_name
      let i := insert_documents tok resp bucketAcc c.st g w bucket_name documents
      let r := mainLoop tok resp bResp bucketAcc i.store i.g i.w rest
      ⟨r.store, r.g, r.w, c.logs ++ i.logs ++ r.logs⟩

/-- The trailing loop of the script: provision each additional bucket
and print its `[INFO]` line. -/
def extrasLoop (bResp : String → BucketResp) : Store → List String → Store × List String
  | st, [] => (st, [])
  | st, bucket_name :: rest =>
      let c := create_bucket (bResp bucket_name) st bucket_name
      let r := extrasLoop bResp c.st rest
      (r.1, c.logs
        ++ ["[INFO] Additional bucket \x27" ++ bucket_name ++ "\x27 created or verified."]
        ++ r.2)

/-- The whole run of `importBuckets.py` after loading: import every
loaded collection, provision the additional buckets, print the final
completion line. -/
def importMain (tok : Nat → String) (resp : Nat → UpsertResp)
    (bResp : String → BucketResp) (bucketAcc : String → Option String)
    (buckets_data : List (String × List Doc)) (st : Store) : Store × List String :=
  let m := mainLoop tok resp bResp bucketAcc st 0 0 buckets_data
  let e := extrasLoop bResp m.store ADDITIONAL_BUCKETS
  (e.1, m.logs ++ e.2 ++ ["[FINISHED] Import completed!"])

/-! ## Specification-side helper definitions

Independent characterizations of the loops, used to state and prove the
claims: the sequence of `(key, document)` writes actually applied, the
expected outcome per store response, last-write-wins lookup, and the
deterministic key policy. -/

/-- The writes actually applied by the per-document loop: one
`(key, document)` pair per successful upsert, in order; failed upserts
contribute nothing. -/
def loopWrites (tok : Nat → String) (resp : Nat → UpsertResp) (name : String) :
    Nat → Nat → List Doc → List (Value × Doc)
  | _, _, [] => []
  | g, w, doc :: rest =>
      let r := resolve_key tok g name doc
      (match resp w with
       | UpsertResp.ok => [(r.1, doc)]
       | _ => []) ++ loopWrites tok resp name r.2.1 (w + 1) rest

/-- Replay a list of writes against a collection. -/
def applyWrites : Col → List (Value × Doc) → Col
  | c, [] => c
  | c, (k, d) :: ws => applyWrites (colUpsert c k d) ws

/-- The document of the last write under a given key, if any. -/
def lastW : List (Value × Doc) → Value → Option Doc
  | [], _ => none
  | (k, d) :: ws, q =>
      match lastW ws q with
      | some d2 => some d2
      | none => if k = q then some d else none

/-- The outcome the script reports for one store response. -/
def respOutcome : UpsertResp → WriteOutcome
  | UpsertResp.ok => WriteOutcome.created
  | UpsertResp.docExists => WriteOutcome.already_exists
  | UpsertResp.err _ => WriteOutcome.failed

/-- The outcomes of `n` successive writes starting at write index `w`. -/
def loopOutcomes (resp : Nat → UpsertResp) : Nat → Nat → List WriteOutcome
  | _, 0 => []
  | w, n + 1 => respOutcome (resp w) :: loopOutcomes resp (w + 1) n

/-- The keys of a collection, in order. -/
def colKeys (c : Col) : List Value := c.map Prod.fst

/-- How many writes of the list target the given key. -/
def countKey (ws : List (Value × Doc)) (k : Value) : Nat :=
  (ws.map Prod.fst).count k

/-- The identifier string a non-users document stringifies to:
`str(doc.get("id", doc.get("uuid", doc.get("_id", None))))`. -/
def detDocId (doc : Doc) : String :=
  pyStr (pyGet doc "id" (pyGet doc "uuid" (pyGet doc "_id" Value.null)))

/-- Whether key resolution is deterministic for this document (no random
token needed): a users document with an `email` field, or any other
document whose identifier string is neither empty nor `"None"`. -/
def detKeyOk (name : String) (doc : Doc) : Bool :=
  if name = "UsersBDD" then (alookup doc "email").isSome
  else !(detDocId doc = "" || detDocId doc = "None")

/-- The deterministic key of a document (meaningful when `detKeyOk`). -/
def detKey (name : String) (doc : Doc) : Value :=
  if name = "UsersBDD" then
    match alookup doc "email" with
    | some v => v
    | none => Value.str ""
  else Value.str (detDocId doc)

/-- The writes of a fully deterministic collection import. -/
def detWrites (name : String) (docs : List Doc) : List (Value × Doc) :=
  docs.map fun d => (detKey name d, d)

/-- `addNames bs ns`: append each name of `ns` not already present
(the bucket-list effect of a sequence of successful `create_bucket`s). -/
def addNames : List String → List String → List String
  | bs, [] => bs
  | bs, n :: ns => addNames (if n ∈ bs then bs else bs ++ [n]) ns

/-- Whether `pat` occurs at the start of `hay`. -/
def charsHasPre : List Char → List Char → Bool
  | _, [] => true
  | [], _ :: _ => false
  | c :: cs, d :: ds => c = d && charsHasPre cs ds

/-- Whether `pat` occurs anywhere inside `hay`. -/
def charsHasSub : List Char → List Char → Bool
  | [], pat => pat.isEmpty
  | hay@(_ :: t), pat => charsHasPre hay pat || charsHasSub t pat

/-- Substring test on strings. -/
def strContains (hay pat : String) : Bool :=
  charsHasSub hay.toList pat.toList

/-! ## Generic lemmas about the collection primitives -/

/-- Lookup after an upsert: the upserted key reads back the new
document, every other key is untouched. -/
theorem colLookup_colUpsert (c : Col) (k : Value) (d : Doc) (q : Value) :
    colLookup (colUpsert c k d) q = if k = q then some d else colLookup c q := by
  induction c with
  | nil =>
      simp [colUpsert, colLookup]
  | cons e rest ih =>
      obtain ⟨k2, d2⟩ := e
      by_cases h2 : k2 = k
      · subst h2
        by_cases hq : k2 = q <;> simp [colUpsert, colLookup, hq]
      · by_cases hq : k2 = q
        · subst hq
          have hkq : ¬ k = k2 := fun h => h2 h.symm
          simp [colUpsert, colLookup, h2, hkq]
        · simp [colUpsert, colLookup, h2, hq, ih]

/-- Keys of a cons cell. -/
theorem colKeys_cons (k : Value) (d : Doc) (c : Col) :
    colKeys ((k, d) :: c) = k :: colKeys c := rfl

/-- Keys after an upsert: unchanged when the key was present, the key is
appended otherwise. -/
theorem colKeys_colUpsert (c : Col) (k : Value) (d : Doc) :
    colKeys (colUpsert c k d) =
      if k ∈ colKeys c then colKeys c else colKeys c ++ [k] := by
  induction c with
  | nil => simp [colUpsert, colKeys]
  | cons e rest ih =>
      obtain ⟨k2, d2⟩ := e
      by_cases h2 : k2 = k
      · subst h2
        simp [colUpsert, colKeys]
      · have hne : ¬ k = k2 := fun h => h2 h.symm
        have hstep : colUpsert ((k2, d2) :: rest) k d = (k2, d2) :: colUpsert rest k d := by
          simp [colUpsert, h2]
        rw [hstep, colKeys_cons, ih, colKeys_cons]
        by_cases hk : k ∈ colKeys rest
        · rw [if_pos hk, if_pos (List.mem_cons.mpr (Or.inr hk))]
        · rw [if_neg hk, if_neg (by
            intro hmem
            rcases List.mem_cons.mp hmem with h | h
            · exact hne h
            · exact hk h)]
          simp

/-- Upsert preserves key distinctness. -/
theorem colKeys_nodup_colUpsert (c : Col) (k : Value) (d : Doc)
    (h : (colKeys c).Nodup) : (colKeys (colUpsert c k d)).Nodup := by
  rw [colKeys_colUpsert]
  by_cases hk : k ∈ colKeys c
  · simpa [hk] using h
  · simp only [hk, if_false]
    exact List.Nodup.append h (List.nodup_singleton k) (by simpa using hk)

/-- Lookup after replaying writes: the last write to the key wins; keys
never written read as before. -/
theorem colLookup_applyWrites (ws : List (Value × Doc)) :
    ∀ (c : Col) (q : Value),
      colLookup (applyWrites c ws) q =
        match lastW ws q with
        | some d => some d
        | none => colLookup c q := by
  induction ws with
  | nil => intro c q; simp [applyWrites, lastW]
  | cons e rest ih =>
      intro c q
      obtain ⟨k, d⟩ := e
      rw [show applyWrites c ((k, d) :: rest) = applyWrites (colUpsert c k d) rest from rfl,
        ih (colUpsert c k d) q, colLookup_colUpsert]
      cases hlast : lastW rest q with
      | some d2 => simp [lastW, hlast]
      | none => by_cases hk : k = q <;> simp [lastW, hlast, hk]

/-- Replaying the same writes twice reads the same as replaying them
once, at every key. -/
theorem colLookup_applyWrites_idem (ws : List (Value × Doc)) (c : Col) (q : Value) :
    colLookup (applyWrites (applyWrites c ws) ws) q =
      colLookup (applyWrites c ws) q := by
  rw [colLookup_applyWrites, colLookup_applyWrites]
  cases hlast : lastW ws q with
  | some d => simp
  | none => simp [colLookup_applyWrites, hlast]

/-- A key is in the replayed collection iff it was there or was written. -/
theorem mem_colKeys_applyWrites (ws : List (Value × Doc)) :
    ∀ (c : Col) (q : Value),
      q ∈ colKeys (applyWrites c ws) ↔
        q ∈ colKeys c ∨ q ∈ ws.map Prod.fst := by
  induction ws with
  | nil => intro c q; simp [applyWrites]
  | cons e rest ih =>
      intro c q
      obtain ⟨k, d⟩ := e
      rw [show applyWrites c ((k, d) :: rest) = applyWrites (colUpsert c k d) rest from rfl,
        ih (colUpsert c k d) q]
      constructor
      · rintro (hq | hq)
        · rw [colKeys_colUpsert] at hq
          by_cases hk : k ∈ colKeys c
          · simp [hk] at hq
            exact Or.inl hq
          · simp [hk] at hq
            rcases hq with hq | hq
            · exact Or.inl hq
            · subst hq; simp
        · simp [hq]
      · rintro (hq | hq)
        · left
          rw [colKeys_colUpsert]
          by_cases hk : k ∈ colKeys c <;> simp [hk, hq]
        · rw [List.map_cons] at hq
          rcases List.mem_cons.mp hq with hq | hq
          · subst hq
            left
            rw [colKeys_colUpsert]
            by_cases hk : q ∈ colKeys c <;> simp [hk]
          · exact Or.inr hq

/-- Replaying writes preserves key distinctness. -/
theorem colKeys_nodup_applyWrites (ws : List (Value × Doc)) :
    ∀ (c : Col), (colKeys c).Nodup → (colKeys (applyWrites c ws)).Nodup := by
  induction ws with
  | nil => intro c h; simpa [applyWrites] using h
  | cons e rest ih =>
      intro c h
      obtain ⟨k, d⟩ := e
      exact ih (colUpsert c k d) (colKeys_nodup_colUpsert c k d h)

/-! ## Characterization of the per-document loop -/

/-- The final collection of the loop is the initial one with exactly the
successful writes replayed: failed and conflicted upserts change
nothing. -/
theorem insertLoop_col (tok : Nat → String) (resp : Nat → UpsertResp)
    (name : String) (docs : List Doc) :
    ∀ (col : Col) (g w : Nat),
      (insertLoop tok resp name col g w docs).col =
        applyWrites col (loopWrites tok resp name g w docs) := by
  induction docs with
  | nil => intro col g w; simp [insertLoop, loopWrites, applyWrites]
  | cons doc rest ih =>
      intro col g w
      show (insertLoop tok resp name col g w (doc :: rest)).col = _
      cases hresp : resp w with
      | ok =>
          simp only [insertLoop, loopWrites, hresp, write_doc]
          rw [ih]
          rfl
      | docExists =>
          simp only [insertLoop, loopWrites, hresp, write_doc]
          rw [ih]
          rfl
      | err m =>
          simp only [insertLoop, loopWrites, hresp, write_doc]
          rw [ih]
          rfl

/-- Every document of the batch receives exactly one outcome,
determined by the store's response to its write. -/
theorem insertLoop_outcomes (tok : Nat → String) (resp : Nat → UpsertResp)
    (name : String) (docs : List Doc) :
    ∀ (col : Col) (g w : Nat),
      (insertLoop tok resp name col g w docs).outcomes =
        loopOutcomes resp w docs.length := by
  induction docs with
  | nil => intro col g w; simp [insertLoop, loopOutcomes]
  | cons doc rest ih =>
      intro col g w
      cases hresp : resp w with
      | ok => simp only [insertLoop, List.length_cons, loopOutcomes, respOutcome, hresp, write_doc, ih]
      | docExists => simp only [insertLoop, List.length_cons, loopOutcomes, respOutcome, hresp, write_doc, ih]
      | err m => simp only [insertLoop, List.length_cons, loopOutcomes, respOutcome, hresp, write_doc, ih]

/-- `loopOutcomes` yields one outcome per write. -/
theorem loopOutcomes_length (resp : Nat → UpsertResp) :
    ∀ (n w : Nat), (loopOutcomes resp w n).length = n := by
  intro n
  induction n with
  | zero => intro w; rfl
  | succ n ih => intro w; simp [loopOutcomes, ih]

/-- The `i`-th outcome is the one classifying store response `w + i`. -/
theorem loopOutcomes_get (resp : Nat → UpsertResp) :
    ∀ (n w i : Nat), i < n →
      (loopOutcomes resp w n).get? i = some (respOutcome (resp (w + i))) := by
  intro n
  induction n with
  | zero => intro w i h; exact absurd h (Nat.not_lt_zero i)
  | succ n ih =>
      intro w i h
      cases i with
      | zero => simp [loopOutcomes]
      | succ i =>
          have hi : i < n := Nat.lt_of_succ_lt_succ h
          have harg : w + (i + 1) = (w + 1) + i := by omega
          rw [harg]
          exact ih (w + 1) i hi

/-- A write that the store fails with a non-conflict error leaves its
`[ERROR]` line — bucket name and message — in the output. -/
theorem insertLoop_err_log (tok : Nat → String) (resp : Nat → UpsertResp)
    (name : String) (docs : List Doc) :
    ∀ (col : Col) (g w i : Nat) (m : String), i < docs.length →
      resp (w + i) = UpsertResp.err m →
      ("[ERROR] Error during insertion in " ++ name ++ ": " ++ m)
        ∈ (insertLoop tok resp name col g w docs).logs := by
  induction docs with
  | nil => intro col g w i m h; exact absurd h (Nat.not_lt_zero i)
  | cons doc rest ih =>
      intro col g w i m hi hresp
      cases i with
      | zero =>
          rw [Nat.add_zero] at hresp
          show _ ∈ _ ++ (write_doc (resp w) _ _ _ _).2.2 ++ _
          rw [hresp]
          simp [write_doc]
      | succ i =>
          have hi2 : i < rest.length := Nat.lt_of_succ_lt_succ hi
          have hresp2 : resp (w + 1 + i) = UpsertResp.err m := by
            rw [show w + 1 + i = w + (i + 1) from by omega]
            exact hresp
          show _ ∈ _ ++ _ ++ _
          refine List.mem_append.mpr (Or.inr ?_)
          exact ih _ _ (w + 1) i m hi2 hresp2

/-! ## Store-level lemmas -/

/-- Reading back the bucket just written. -/
theorem storeGet_setCol_same (st : Store) (name : String) (c : Col) :
    storeGet (setCol st name c) name = c := by
  show storeGet ⟨st.buckets, setColData st.data name c⟩ name = c
  have h : ∀ m : List (String × Col), alookup (setColData m name c) name = some c := by
    intro m
    induction m with
    | nil => simp [setColData, alookup]
    | cons e rest ih =>
        obtain ⟨n, c2⟩ := e
        by_cases hn : n = name
        · subst hn; simp [setColData, alookup]
        · simp [setColData, alookup, hn, ih]
  simp [storeGet, h]

/-- Writing one bucket leaves every other bucket's data unchanged. -/
theorem storeGet_setCol_ne (st : Store) (name n : String) (c : Col)
    (hne : n ≠ name) : storeGet (setCol st name c) n = storeGet st n := by
  show storeGet ⟨st.buckets, setColData st.data name c⟩ n = storeGet st n
  have hne2 : ¬ name = n := fun h => hne h.symm
  have h : ∀ m : List (String × Col),
      alookup (setColData m name c) n = alookup m n := by
    intro m
    induction m with
    | nil => simp [setColData, alookup, hne2]
    | cons e rest ih =>
        obtain ⟨n2, c2⟩ := e
        by_cases hn2 : n2 = name
        · subst hn2
          simp [setColData, alookup, hne2, ih]
        · simp [setColData, alookup, hn2, ih]
  simp [storeGet, h]

/-- `create_bucket` never touches document data, whatever the store
responds. -/
theorem create_bucket_data (resp : BucketResp) (st : Store) (name : String) :
    ((create_bucket resp st name).st).data = st.data := by
  cases resp with
  | err m => rfl
  | ok =>
      by_cases h : name ∈ st.buckets <;> simp [create_bucket, h]
  | alreadyExists =>
      by_cases h : name ∈ st.buckets <;> simp [create_bucket, h]

/-- `create_bucket` leaves every bucket's stored documents unchanged. -/
theorem storeGet_create_bucket (resp : BucketResp) (st : Store)
    (name n : String) :
    storeGet ((create_bucket resp st name).st) n = storeGet st n := by
  unfold storeGet
  rw [create_bucket_data]

/-- A successful `create_bucket` appends the name when absent and does
nothing when present. -/
theorem create_bucket_buckets_ok (st : Store) (name : String) :
    ((create_bucket BucketResp.ok st name).st).buckets =
      if name ∈ st.buckets then st.buckets else st.buckets ++ [name] := by
  by_cases h : name ∈ st.buckets <;> simp [create_bucket, h]

/-- `insert_documents` never touches the bucket list. -/
theorem insert_documents_buckets (tok : Nat → String) (resp : Nat → UpsertResp)
    (bucketAcc : String → Option String) (st : Store) (g w : Nat)
    (name : String) (docs : List Doc) :
    ((insert_documents tok resp bucketAcc st g w name docs).store).buckets =
      st.buckets := by
  unfold insert_documents
  cases bucketAcc name <;> rfl

/-- When the bucket handle opens, `insert_documents` replaces exactly
that bucket's collection with the replay of the successful writes. -/
theorem insert_documents_store (tok : Nat → String) (resp : Nat → UpsertResp)
    (bucketAcc : String → Option String) (st : Store) (g w : Nat)
    (name : String) (docs : List Doc) (h : bucketAcc name = none) :
    (insert_documents tok resp bucketAcc st g w name docs).store =
      setCol st name
        (applyWrites (storeGet st name) (loopWrites tok resp name g w docs)) := by
  unfold insert_documents
  rw [h]
  simp [insertLoop_col]

/-! ## Deterministic key resolution -/

/-- When a document needs no random token, the resolved key is its
deterministic key and the token counter does not advance — for every
token stream. -/
theorem resolve_key_det (tok : Nat → String) (g : Nat) (name : String)
    (doc : Doc) (h : detKeyOk name doc = true) :
    (resolve_key tok g name doc).1 = detKey name doc ∧
      (resolve_key tok g name doc).2.1 = g := by
  by_cases hu : name = "UsersBDD"
  · subst hu
    unfold detKeyOk at h
    rw [if_pos rfl] at h
    cases hmail : alookup doc "email" with
    | some v => constructor <;> simp [resolve_key, detKey, hmail]
    | none => rw [hmail] at h; simp at h
  · unfold detKeyOk at h
    rw [if_neg hu] at h
    have ha : ¬ detDocId doc = "" := by
      intro hc; simp [hc] at h
    have hb : ¬ detDocId doc = "None" := by
      intro hc; simp [hc] at h
    unfold detDocId at ha hb
    constructor <;> simp [resolve_key, detKey, detDocId, hu, ha, hb]

/-- With an always-successful store and only deterministic keys, the
writes of the loop are the deterministic writes, independent of the
token stream and counters. -/
theorem loopWrites_det (tok : Nat → String) (name : String) (docs : List Doc)
    (hdet : ∀ d ∈ docs, detKeyOk name d = true) :
    ∀ (g w : Nat),
      loopWrites tok (fun _ => UpsertResp.ok) name g w docs =
        detWrites name docs := by
  induction docs with
  | nil => intro g w; rfl
  | cons doc rest ih =>
      intro g w
      have hd := hdet doc (List.mem_cons_self doc rest)
      have hrest : ∀ d ∈ rest, detKeyOk name d = true := fun d hd2 =>
        hdet d (List.mem_cons_of_mem doc hd2)
      obtain ⟨hk, hg⟩ := resolve_key_det tok g name doc hd
      show ((resolve_key tok g name doc).1, doc) ::
          loopWrites tok (fun _ => UpsertResp.ok) name
            (resolve_key tok g name doc).2.1 (w + 1) rest = _
      rw [hk, hg, ih hrest]
      rfl

/-! ## Orchestrator-level lemmas -/

/-- Membership in an `addNames` accumulation. -/
theorem mem_addNames (ns : List String) :
    ∀ (bs : List String) (n : String),
      n ∈ addNames bs ns ↔ n ∈ bs ∨ n ∈ ns := by
  induction ns with
  | nil => intro bs n; simp [addNames]
  | cons m ms ih =>
      intro bs n
      show n ∈ addNames (if m ∈ bs then bs else bs ++ [m]) ms ↔ _
      rw [ih]
      by_cases hm : m ∈ bs
      · rw [if_pos hm]
        constructor
        · rintro (h | h)
          · exact Or.inl h
          · exact Or.inr (List.mem_cons_of_mem m h)
        · rintro (h | h)
          · exact Or.inl h
          · rcases List.mem_cons.mp h with h | h
            · exact Or.inl (by rw [h]; exact hm)
            · exact Or.inr h
      · rw [if_neg hm]
        constructor
        · rintro (h | h)
          · rcases List.mem_append.mp h with h | h
            · exact Or.inl h
            · refine Or.inr (List.mem_cons.mpr (Or.inl ?_))
              simpa using h
          · exact Or.inr (List.mem_cons_of_mem m h)
        · rintro (h | h)
          · exact Or.inl (List.mem_append.mpr (Or.inl h))
          · rcases List.mem_cons.mp h with h | h
            · exact Or.inl (List.mem_append.mpr (Or.inr (by simp [h])))
            · exact Or.inr h

/-- Adding names that are all already present changes nothing. -/
theorem addNames_subset_id (ns : List String) :
    ∀ (bs : List String), (∀ n ∈ ns, n ∈ bs) → addNames bs ns = bs := by
  induction ns with
  | nil => intro bs _; rfl
  | cons m ms ih =>
      intro bs h
      show addNames (if m ∈ bs then bs else bs ++ [m]) ms = bs
      rw [if_pos (h m (List.mem_cons_self m ms))]
      exact ih bs fun n hn => h n (List.mem_cons_of_mem m hn)

/-- When the bucket handle fails to open, the whole collection is
skipped: state and counters unchanged, no outcome reported, one
`[ERROR]` line. -/
theorem insert_documents_skip (tok : Nat → String) (resp : Nat → UpsertResp)
    (bucketAcc : String → Option String) (st : Store) (g w : Nat)
    (name : String) (docs : List Doc) (m : String)
    (h : bucketAcc name = some m) :
    insert_documents tok resp bucketAcc st g w name docs =
      ⟨st, g, w, [],
        ["[ERROR] Unable to access bucket \x27" ++ name ++ "\x27: " ++ m]⟩ := by
  unfold insert_documents
  rw [h]

/-- `insert_documents` touches no bucket other than its target. -/
theorem insert_documents_storeGet_ne (tok : Nat → String)
    (resp : Nat → UpsertResp) (bucketAcc : String → Option String)
    (st : Store) (g w : Nat) (name q : String) (docs : List Doc)
    (hq : q ≠ name) :
    storeGet ((insert_documents tok resp bucketAcc st g w name docs).store) q =
      storeGet st q := by
  unfold insert_documents
  cases bucketAcc name with
  | some m => rfl
  | none => simp only []; exact storeGet_setCol_ne _ _ _ _ hq

/-- A bucket named in no entry of the data is untouched by the main
loop, whatever the oracles. -/
theorem mainLoop_get_absent (tok : Nat → String) (resp : Nat → UpsertResp)
    (bResp : String → BucketResp) (bucketAcc : String → Option String)
    (data : List (String × List Doc)) (name : String)
    (habs : name ∉ data.map Prod.fst) :
    ∀ (st : Store) (g w : Nat),
      storeGet ((mainLoop tok resp bResp bucketAcc st g w data).store) name =
        storeGet st name := by
  induction data with
  | nil => intro st g w; rfl
  | cons e rest ih =>
      obtain ⟨n, ds⟩ := e
      intro st g w
      have hne : name ≠ n := by
        intro hc
        exact habs (by simp [hc])
      have habs2 : name ∉ rest.map Prod.fst := by
        intro hc
        exact habs (by simp [hc])
      show storeGet ((mainLoop tok resp bResp bucketAcc
          (insert_documents tok resp bucketAcc
            (create_bucket (bResp n) st n).st g w n ds).store _ _ rest).store) name = _
      rw [ih habs2]
      rw [insert_documents_storeGet_ne _ _ _ _ _ _ _ _ _ hne]
      exact storeGet_create_bucket _ _ _ _

/-- Bucket list after the main loop with a well-behaved provisioner:
each data bucket name is appended once if absent. -/
theorem mainLoop_buckets (tok : Nat → String) (resp : Nat → UpsertResp)
    (bucketAcc : String → Option String) (data : List (String × List Doc)) :
    ∀ (st : Store) (g w : Nat),
      ((mainLoop tok resp (fun _ => BucketResp.ok) bucketAcc st g w data).store).buckets =
        addNames st.buckets (data.map Prod.fst) := by
  induction data with
  | nil => intro st g w; rfl
  | cons e rest ih =>
      obtain ⟨n, ds⟩ := e
      intro st g w
      show ((mainLoop tok resp (fun _ => BucketResp.ok) bucketAcc
          (insert_documents tok resp bucketAcc
            (create_bucket BucketResp.ok st n).st g w n ds).store _ _ rest).store).buckets = _
      rw [ih, insert_documents_buckets, create_bucket_buckets_ok]
      rfl

/-- Content of each bucket after a fully successful, fully deterministic
main loop: its own writes replayed over its previous content. -/
theorem mainLoop_get (tok : Nat → String) (data : List (String × List Doc))
    (hnd : (data.map Prod.fst).Nodup)
    (hdet : ∀ p ∈ data, ∀ d ∈ p.2, detKeyOk p.1 d = true) :
    ∀ (st : Store) (g w : Nat) (name : String),
      storeGet ((mainLoop tok (fun _ => UpsertResp.ok) (fun _ => BucketResp.ok)
          (fun _ => none) st g w data).store) name =
        match alookup data name with
        | some ds => applyWrites (storeGet st name) (detWrites name ds)
        | none => storeGet st name := by
  induction data with
  | nil => intro st g w name; rfl
  | cons e rest ih =>
      obtain ⟨n, ds⟩ := e
      intro st g w name
      have hnd2 : (rest.map Prod.fst).Nodup := (List.nodup_cons.mp hnd).2
      have hdet2 : ∀ p ∈ rest, ∀ d ∈ p.2, detKeyOk p.1 d = true := fun p hp =>
        hdet p (List.mem_cons_of_mem _ hp)
      show storeGet ((mainLoop tok (fun _ => UpsertResp.ok) (fun _ => BucketResp.ok)
          (fun _ => none)
          (insert_documents tok (fun _ => UpsertResp.ok) (fun _ => none)
            (create_bucket BucketResp.ok st n).st g w n ds).store _ _ rest).store) name = _
      by_cases hn : n = name
      · subst hn
        have habs : n ∉ rest.map Prod.fst := (List.nodup_cons.mp hnd).1
        rw [mainLoop_get_absent _ _ _ _ rest n habs]
        rw [insert_documents_store _ _ _ _ _ _ _ _ rfl, storeGet_setCol_same]
        rw [loopWrites_det tok n ds (hdet (n, ds) (List.mem_cons_self _ _))]
        rw [storeGet_create_bucket]
        simp [alookup]
      · have hne : ¬ n = name := hn
        rw [ih hnd2 hdet2]
        have hget : ∀ st2 : Store,
            storeGet ((insert_documents tok (fun _ => UpsertResp.ok) (fun _ => none)
              (create_bucket BucketResp.ok st2 n).st g w n ds).store) name =
              storeGet st2 name := by
          intro st2
          rw [insert_documents_storeGet_ne _ _ _ _ _ _ _ _ _ (fun hc => hne hc.symm)]
          exact storeGet_create_bucket _ _ _ _
        cases hres : alookup rest name with
        | some ds2 => simp [alookup, hne, hres, hget]
        | none => simp [alookup, hne, hres, hget]

/-- The extras loop never touches document data. -/
theorem extrasLoop_data (bResp : String → BucketResp) (names : List String) :
    ∀ (st : Store), ((extrasLoop bResp st names).1).data = st.data := by
  induction names with
  | nil => intro st; rfl
  | cons n rest ih =>
      intro st
      show ((extrasLoop bResp (create_bucket (bResp n) st n).st rest).1).data = _
      rw [ih, create_bucket_data]

/-- Reading any bucket is unaffected by the extras loop. -/
theorem extrasLoop_storeGet (bResp : String → BucketResp) (names : List String)
    (st : Store) (q : String) :
    storeGet ((extrasLoop bResp st names).1) q = storeGet st q := by
  unfold storeGet
  rw [extrasLoop_data]

/-- Bucket list after a successful extras loop. -/
theorem extrasLoop_buckets (names : List String) :
    ∀ (st : Store),
      ((extrasLoop (fun _ => BucketResp.ok) st names).1).buckets =
        addNames st.buckets names := by
  induction names with
  | nil => intro st; rfl
  | cons n rest ih =>
      intro st
      show ((extrasLoop (fun _ => BucketResp.ok)
          (create_bucket BucketResp.ok st n).st rest).1).buckets = _
      rw [ih, create_bucket_buckets_ok]
      rfl

/-! ## Remaining support lemmas -/

/-- A key that some write targets has a last write. -/
theorem lastW_isSome_of_mem (ws : List (Value × Doc)) (k : Value)
    (h : k ∈ ws.map Prod.fst) : ∃ d : Doc, lastW ws k = some d := by
  induction ws with
  | nil => simp at h
  | cons e rest ih =>
      obtain ⟨k2, d2⟩ := e
      rw [List.map_cons] at h
      show ∃ d, (match lastW rest k with
        | some d3 => some d3
        | none => if k2 = k then some d2 else none) = some d
      rcases List.mem_cons.mp h with h | h
      · cases hrest : lastW rest k with
        | some d3 => exact ⟨d3, by simp [hrest]⟩
        | none =>
            have hk : k2 = k := by simpa using h.symm
            exact ⟨d2, by simp [hrest, hk]⟩
      · obtain ⟨d3, hd3⟩ := ih h
        exact ⟨d3, by simp [hd3]⟩

/-- The last write's document is one of the written documents. -/
theorem lastW_mem_snd (ws : List (Value × Doc)) (k : Value) (d : Doc)
    (h : lastW ws k = some d) : d ∈ ws.map Prod.snd := by
  induction ws with
  | nil => simp [lastW] at h
  | cons e rest ih =>
      obtain ⟨k2, d2⟩ := e
      rw [show lastW ((k2, d2) :: rest) k = (match lastW rest k with
        | some d3 => some d3
        | none => if k2 = k then some d2 else none) from rfl] at h
      cases hrest : lastW rest k with
      | some d3 =>
          rw [hrest] at h
          cases h
          exact List.mem_cons_of_mem _ (ih hrest)
      | none =>
          rw [hrest] at h
          by_cases hk : k2 = k
          · rw [if_pos hk] at h
            cases h
            exact List.mem_cons_self _ _
          · rw [if_neg hk] at h
            cases h

/-- A document readable after replaying writes was either already there
or is one of the written documents, verbatim. -/
theorem colLookup_applyWrites_mem (ws : List (Value × Doc)) (c : Col)
    (k : Value) (d : Doc) (h : colLookup (applyWrites c ws) k = some d) :
    colLookup c k = some d ∨ d ∈ ws.map Prod.snd := by
  rw [colLookup_applyWrites] at h
  cases hlast : lastW ws k with
  | some d2 =>
      rw [hlast, Option.some_inj] at h
      subst h
      exact Or.inr (lastW_mem_snd ws k d2 hlast)
  | none =>
      rw [hlast] at h
      exact Or.inl h

/-- Every document the loop writes is a member of the source batch,
unmodified. -/
theorem loopWrites_snd_mem (tok : Nat → String) (resp : Nat → UpsertResp)
    (name : String) (docs : List Doc) :
    ∀ (g w : Nat) (d : Doc),
      d ∈ (loopWrites tok resp name g w docs).map Prod.snd → d ∈ docs := by
  induction docs with
  | nil => intro g w d h; simp [loopWrites] at h
  | cons doc rest ih =>
      intro g w d h
      show d ∈ doc :: rest
      rw [show loopWrites tok resp name g w (doc :: rest) =
        (match resp w with
         | UpsertResp.ok => [((resolve_key tok g name doc).1, doc)]
         | _ => []) ++
          loopWrites tok resp name (resolve_key tok g name doc).2.1 (w + 1) rest
        from rfl] at h
      rw [List.map_append] at h
      rcases List.mem_append.mp h with h | h
      · cases hresp : resp w with
        | ok =>
            rw [hresp] at h
            simp at h
            simp [h]
        | docExists => rw [hresp] at h; simp at h
        | err m => rw [hresp] at h; simp at h
      · exact List.mem_cons_of_mem _ (ih _ _ d h)

/-! ## Claims -/

/-- C4: for every document imported into the designated users collection
(`UsersBDD`), if the document has an `email` field the resolved key is
that field's value verbatim (and the informational line is printed);
otherwise the resolved key is the freshly generated token and a warning
that the user has no email is logged. -/
theorem claim_C4 (tok : Nat → String) (g : Nat) (doc : Doc) :
    (∀ v : Value, alookup doc "email" = some v →
      resolve_key tok g "UsersBDD" doc =
        (v, g, ["[INFO] Using email as ID for user: " ++ pyStr v])) ∧
    (alookup doc "email" = none →
      resolve_key tok g "UsersBDD" doc =
        (Value.str (tok g), g + 1,
          ["[WARNING] User without email, generated ID: " ++ tok g])) := by
  constructor
  · intro v hv
    simp [resolve_key, hv]
  · intro hv
    simp [resolve_key, hv]

/-- C4 witness: a users document with an email resolves to that email
verbatim. -/
theorem claim_C4_witness :
    alookup ([("email", Value.str "a@b.c")] : Doc) "email" =
        some (Value.str "a@b.c") ∧
      resolve_key (fun _ => "t0") 0 "UsersBDD" [("email", Value.str "a@b.c")] =
        (Value.str "a@b.c", 0,
          ["[INFO] Using email as ID for user: " ++ pyStr (Value.str "a@b.c")]) :=
  ⟨rfl, (claim_C4 (fun _ => "t0") 0 [("email", Value.str "a@b.c")]).1
    (Value.str "a@b.c") rfl⟩

/-- C6: provisioning the same previously-absent bucket twice in a row on
a well-behaved store reports `created` then `already_exists`; the second
call leaves the store exactly as the first left it.  (`create_bucket` is
a total function: every exception path is caught and returns an outcome,
so no call raises a fatal error.) -/
theorem claim_C6 (st : Store) (name : String) (h : name ∉ st.buckets) :
    (create_bucket BucketResp.ok st name).outcome = ProvisionOutcome.created ∧
    (create_bucket BucketResp.ok
        (create_bucket BucketResp.ok st name).st name).outcome =
      ProvisionOutcome.already_exists ∧
    (create_bucket BucketResp.ok
        (create_bucket BucketResp.ok st name).st name).st =
      (create_bucket BucketResp.ok st name).st := by
  have h1 : create_bucket BucketResp.ok st name =
      ⟨{ st with buckets := st.buckets ++ [name] }, ProvisionOutcome.created,
        ["[SUCCESS] Bucket \x27" ++ name ++ "\x27 created successfully."]⟩ := by
    simp [create_bucket, h]
  have hmem : name ∈ ({ st with buckets := st.buckets ++ [name] } : Store).buckets := by
    simp
  refine ⟨by rw [h1], ?_, ?_⟩ <;> rw [h1] <;> simp [create_bucket, hmem]

/-- C6 witness: concrete fresh store and bucket name. -/
theorem claim_C6_witness :
    "NewBDD" ∉ (⟨[], []⟩ : Store).buckets ∧
    ((create_bucket BucketResp.ok ⟨[], []⟩ "NewBDD").outcome =
        ProvisionOutcome.created ∧
      (create_bucket BucketResp.ok
          (create_bucket BucketResp.ok ⟨[], []⟩ "NewBDD").st "NewBDD").outcome =
        ProvisionOutcome.already_exists ∧
      (create_bucket BucketResp.ok
          (create_bucket BucketResp.ok ⟨[], []⟩ "NewBDD").st "NewBDD").st =
        (create_bucket BucketResp.ok ⟨[], []⟩ "NewBDD").st) :=
  ⟨by decide, claim_C6 ⟨[], []⟩ "NewBDD" (by decide)⟩

/-- C9: key resolution never mutates a document and the resolved key is
not embedded into it — whatever the oracles, any document readable from
any bucket after `insert_documents` either was already stored under that
key before the call or is one of the source documents, verbatim. -/
theorem claim_C9 (tok : Nat → String) (resp : Nat → UpsertResp)
    (bucketAcc : String → Option String) (st : Store) (g w : Nat)
    (name b : String) (docs : List Doc) (k : Value) (d : Doc)
    (h : colLookup
        (storeGet ((insert_documents tok resp bucketAcc st g w name docs).store) b)
        k = some d) :
    colLookup (storeGet st b) k = some d ∨ d ∈ docs := by
  cases hacc : bucketAcc name with
  | some m =>
      rw [insert_documents_skip tok resp bucketAcc st g w name docs m hacc] at h
      exact Or.inl h
  | none =>
      rw [insert_documents_store tok resp bucketAcc st g w name docs hacc] at h
      by_cases hb : b = name
      · subst hb
        rw [storeGet_setCol_same] at h
        rcases colLookup_applyWrites_mem _ _ _ _ h with h2 | h2
        · exact Or.inl h2
        · exact Or.inr (loopWrites_snd_mem tok resp b docs g w d h2)
      · rw [storeGet_setCol_ne _ _ _ _ hb] at h
        exact Or.inl h

/-- C9 witness: importing one document stores it verbatim. -/
theorem claim_C9_witness :
    colLookup
        (storeGet ((insert_documents (fun _ => "t0") (fun _ => UpsertResp.ok)
          (fun _ => none) ⟨[], []⟩ 0 0 "ProductsBDD"
          [[("id", Value.str "p1"), ("name", Value.str "Widget")]]).store)
          "ProductsBDD") (Value.str "p1") =
        some [("id", Value.str "p1"), ("name", Value.str "Widget")] ∧
      (colLookup (storeGet (⟨[], []⟩ : Store) "ProductsBDD") (Value.str "p1") =
          some [("id", Value.str "p1"), ("name", Value.str "Widget")] ∨
        [("id", Value.str "p1"), ("name", Value.str "Widget")] ∈
          [[("id", Value.str "p1"), ("name", Value.str "Widget")]]) :=
  ⟨rfl, claim_C9 (fun _ => "t0") (fun _ => UpsertResp.ok) (fun _ => none)
    ⟨[], []⟩ 0 0 "ProductsBDD" "ProductsBDD"
    [[("id", Value.str "p1"), ("name", Value.str "Widget")]]
    (Value.str "p1") [("id", Value.str "p1"), ("name", Value.str "Widget")] rfl⟩

/-- C10: when opening the bucket handle fails at the start of a
collection's write phase, every document of that collection is skipped
at once — state and counters unchanged, no per-document outcome, a
single bucket-access `[ERROR]` line — and the main loop continues with
the remaining collections exactly as if only that line had been
printed. -/
theorem claim_C10 (tok : Nat → String) (resp : Nat → UpsertResp)
    (bResp : String → BucketResp) (bucketAcc : String → Option String)
    (st : Store) (g w : Nat) (name : String) (docs : List Doc)
    (rest : List (String × List Doc)) (m : String)
    (h : bucketAcc name = some m) :
    insert_documents tok resp bucketAcc st g w name docs =
      ⟨st, g, w, [],
        ["[ERROR] Unable to access bucket \x27" ++ name ++ "\x27: " ++ m]⟩ ∧
    mainLoop tok resp bResp bucketAcc st g w ((name, docs) :: rest) =
      ⟨(mainLoop tok resp bResp bucketAcc
          (create_bucket (bResp name) st name).st g w rest).store,
        (mainLoop tok resp bResp bucketAcc
          (create_bucket (bResp name) st name).st g w rest).g,
        (mainLoop tok resp bResp bucketAcc
          (create_bucket (bResp name) st name).st g w rest).w,
        (create_bucket (bResp name) st name).logs ++
          ("[ERROR] Unable to access bucket \x27" ++ name ++ "\x27: " ++ m) ::
            (mainLoop tok resp bResp bucketAcc
              (create_bucket (bResp name) st name).st g w rest).logs⟩ := by
  have hskip := insert_documents_skip tok resp bucketAcc
    (create_bucket (bResp name) st name).st g w name docs m h
  constructor
  · exact insert_documents_skip tok resp bucketAcc st g w name docs m h
  · show (⟨(mainLoop tok resp bResp bucketAcc
        (insert_documents tok resp bucketAcc
          (create_bucket (bResp name) st name).st g w name docs).store
        (insert_documents tok resp bucketAcc
          (create_bucket (bResp name) st name).st g w name docs).g
        (insert_documents tok resp bucketAcc
          (create_bucket (bResp name) st name).st g w name docs).w rest).store,
      _, _, _⟩ : RunRes) = _
    rw [hskip]
    simp

/-- C10 witness: concrete failing bucket access followed by a working
second collection. -/
theorem claim_C10_witness :
    ((fun b => if b = "BadBDD" then some "timeout" else none) "BadBDD" =
        some "timeout") ∧
    (insert_documents (fun _ => "t0") (fun _ => UpsertResp.ok)
        (fun b => if b = "BadBDD" then some "timeout" else none)
        ⟨[], []⟩ 0 0 "BadBDD" [[("id", Value.str "p1")]] =
      ⟨⟨[], []⟩, 0, 0, [],
        ["[ERROR] Unable to access bucket \x27" ++ "BadBDD" ++ "\x27: " ++ "timeout"]⟩) :=
  ⟨rfl,
    (claim_C10 (fun _ => "t0") (fun _ => UpsertResp.ok)
      (fun _ => BucketResp.ok)
      (fun b => if b = "BadBDD" then some "timeout" else none)
      ⟨[], []⟩ 0 0 "BadBDD" [[("id", Value.str "p1")]] [] "timeout" rfl).1⟩

/-- C5: within one import run against a well-behaved store, whenever two
or more source documents of a collection resolve to the same key, the
final collection holds exactly one entry under that key, and its content
is that of the last such document written (last write wins). -/
theorem claim_C5 (tok : Nat → String) (name : String) (col : Col)
    (g w : Nat) (docs : List Doc) (k : Value)
    (hnd : (colKeys col).Nodup)
    (hdup : 2 ≤ countKey (loopWrites tok (fun _ => UpsertResp.ok) name g w docs) k) :
    (colKeys ((insertLoop tok (fun _ => UpsertResp.ok) name col g w docs).col)).count k
        = 1 ∧
    colLookup ((insertLoop tok (fun _ => UpsertResp.ok) name col g w docs).col) k =
      lastW (loopWrites tok (fun _ => UpsertResp.ok) name g w docs) k := by
  rw [insertLoop_col]
  have hkmem : k ∈ (loopWrites tok (fun _ => UpsertResp.ok) name g w docs).map Prod.fst := by
    by_contra hk
    unfold countKey at hdup
    rw [List.count_eq_zero.mpr hk] at hdup
    omega
  constructor
  · have hmem : k ∈ colKeys (applyWrites col
        (loopWrites tok (fun _ => UpsertResp.ok) name g w docs)) :=
      (mem_colKeys_applyWrites _ _ _).mpr (Or.inr hkmem)
    exact List.count_eq_one_of_mem (colKeys_nodup_applyWrites _ _ hnd) hmem
  · obtain ⟨d, hd⟩ := lastW_isSome_of_mem _ _ hkmem
    rw [colLookup_applyWrites, hd]

/-- C5 witness: two documents with the same `id` collapse to one entry
holding the second document. -/
theorem claim_C5_witness :
    ((colKeys ([] : Col)).Nodup ∧
      2 ≤ countKey (loopWrites (fun _ => "t0") (fun _ => UpsertResp.ok)
        "ProductsBDD" 0 0
        [[("id", Value.str "x"), ("v", Value.int 1)],
         [("id", Value.str "x"), ("v", Value.int 2)]]) (Value.str "x")) ∧
    ((colKeys ((insertLoop (fun _ => "t0") (fun _ => UpsertResp.ok)
          "ProductsBDD" [] 0 0
          [[("id", Value.str "x"), ("v", Value.int 1)],
           [("id", Value.str "x"), ("v", Value.int 2)]]).col)).count (Value.str "x")
        = 1 ∧
      colLookup ((insertLoop (fun _ => "t0") (fun _ => UpsertResp.ok)
          "ProductsBDD" [] 0 0
          [[("id", Value.str "x"), ("v", Value.int 1)],
           [("id", Value.str "x"), ("v", Value.int 2)]]).col) (Value.str "x") =
        lastW (loopWrites (fun _ => "t0") (fun _ => UpsertResp.ok)
          "ProductsBDD" 0 0
          [[("id", Value.str "x"), ("v", Value.int 1)],
           [("id", Value.str "x"), ("v", Value.int 2)]]) (Value.str "x")) :=
  ⟨⟨by decide, by decide⟩,
    claim_C5 (fun _ => "t0") "ProductsBDD" [] 0 0
      [[("id", Value.str "x"), ("v", Value.int 1)],
       [("id", Value.str "x"), ("v", Value.int 2)]] (Value.str "x")
      (by decide) (by decide)⟩

/-- C1 counterexample: the script's write primitive is `upsert`
(create-or-replace), which succeeds on an occupied key instead of
raising `DocumentExistsException` — so importing
`[{"id":"x"},{"id":"x"}]` into an empty collection reports the second
write as `created` (a second `[SUCCESS]` line), not `already_exists`. -/
theorem claim_C1_counterexample :
    (insertLoop (fun n => "gen" ++ toString n) (fun _ => UpsertResp.ok)
        "ProductsBDD" [] 0 0
        [[("id", Value.str "x")], [("id", Value.str "x")]]).outcomes.get? 1 =
      some WriteOutcome.created ∧
    some WriteOutcome.created ≠ some WriteOutcome.already_exists ∧
    (insertLoop (fun n => "gen" ++ toString n) (fun _ => UpsertResp.ok)
        "ProductsBDD" [] 0 0
        [[("id", Value.str "x")], [("id", Value.str "x")]]).logs =
      ["[SUCCESS] Document inserted in ProductsBDD with ID: x",
       "[SUCCESS] Document inserted in ProductsBDD with ID: x"] :=
  ⟨rfl, by decide, rfl⟩

/-- C1 (amended): the writer reports `already_exists` as a warning, not
an error, exactly when the store raises the key-occupied exception; but
the `upsert` primitive the script calls overwrites occupied keys, so the
scenario `[{"id":"x"},{"id":"x"}]` into an empty collection reports
`created` for both writes, and the final collection holds exactly one
document at key `"x"`. -/
theorem claim_C1_amended :
    (∀ (col : Col) (k : Value) (doc : Doc) (name : String),
      write_doc UpsertResp.docExists col k doc name =
        (col, WriteOutcome.already_exists,
          ["[WARNING] Document with ID " ++ pyStr k ++ " already exists."])) ∧
    (insertLoop (fun n => "gen" ++ toString n) (fun _ => UpsertResp.ok)
        "ProductsBDD" [] 0 0
        [[("id", Value.str "x")], [("id", Value.str "x")]]).outcomes =
      [WriteOutcome.created, WriteOutcome.created] ∧
    (insertLoop (fun n => "gen" ++ toString n) (fun _ => UpsertResp.ok)
        "ProductsBDD" [] 0 0
        [[("id", Value.str "x")], [("id", Value.str "x")]]).col =
      [(Value.str "x", [("id", Value.str "x")])] :=
  ⟨fun _ _ _ _ => rfl, rfl, rfl⟩

/-- C2 counterexample: a document whose `id` field is present but null
does not fall through to the later `uuid` field — `doc.get("id", ...)`
returns the null, `str(None)` is the `"None"` sentinel, and a random
token is generated — while the claim requires the key `"u"`. -/
theorem claim_C2_counterexample :
    (resolve_key (fun _ => "gen0") 0 "ProductsBDD"
        [("id", Value.null), ("uuid", Value.str "u")]).1 = Value.str "gen0" ∧
    Value.str "gen0" ≠ Value.str "u" :=
  ⟨rfl, by decide⟩

/-- C2 (amended): for a collection other than `UsersBDD`, the resolver
checks `id`, then `uuid`, then `_id` and takes the first *present* field
(even when its value is null); the key is its stringified value unless
that string is empty or `"None"`, in which case (as also when no field
is present) a fresh random token is used. -/
theorem claim_C2_amended (tok : Nat → String) (g : Nat) (name : String)
    (doc : Doc) (hn : name ≠ "UsersBDD") :
    (∀ v : Value, alookup doc "id" = some v →
      ((pyStr v ≠ "" ∧ pyStr v ≠ "None" →
          resolve_key tok g name doc = (Value.str (pyStr v), g, [])) ∧
        (pyStr v = "" ∨ pyStr v = "None" →
          resolve_key tok g name doc =
            (Value.str (tok g), g + 1,
              ["[INFO] Generated a new ID for document in " ++ name ++ ": " ++ tok g])))) ∧
    (alookup doc "id" = none → ∀ v : Value, alookup doc "uuid" = some v →
      ((pyStr v ≠ "" ∧ pyStr v ≠ "None" →
          resolve_key tok g name doc = (Value.str (pyStr v), g, [])) ∧
        (pyStr v = "" ∨ pyStr v = "None" →
          resolve_key tok g name doc =
            (Value.str (tok g), g + 1,
              ["[INFO] Generated a new ID for document in " ++ name ++ ": " ++ tok g])))) ∧
    (alookup doc "id" = none → alookup doc "uuid" = none →
      ∀ v : Value, alookup doc "_id" = some v →
      ((pyStr v ≠ "" ∧ pyStr v ≠ "None" →
          resolve_key tok g name doc = (Value.str (pyStr v), g, [])) ∧
        (pyStr v = "" ∨ pyStr v = "None" →
          resolve_key tok g name doc =
            (Value.str (tok g), g + 1,
              ["[INFO] Generated a new ID for document in " ++ name ++ ": " ++ tok g])))) ∧
    (alookup doc "id" = none → alookup doc "uuid" = none →
      alookup doc "_id" = none →
      resolve_key tok g name doc =
        (Value.str (tok g), g + 1,
          ["[INFO] Generated a new ID for document in " ++ name ++ ": " ++ tok g])) := by
  refine ⟨?_, ?_, ?_, ?_⟩
  · intro v hid
    constructor
    · intro ⟨h1, h2⟩
      simp [resolve_key, pyGet, hid, hn, h1, h2]
    · intro h12
      rcases h12 with h12 | h12 <;> simp [resolve_key, pyGet, hid, hn, h12]
  · intro hid v huu
    constructor
    · intro ⟨h1, h2⟩
      simp [resolve_key, pyGet, hid, huu, hn, h1, h2]
    · intro h12
      rcases h12 with h12 | h12 <;> simp [resolve_key, pyGet, hid, huu, hn, h12]
  · intro hid huu v hxx
    constructor
    · intro ⟨h1, h2⟩
      simp [resolve_key, pyGet, hid, huu, hxx, hn, h1, h2]
    · intro h12
      rcases h12 with h12 | h12 <;>
        simp [resolve_key, pyGet, hid, huu, hxx, hn, h12]
  · intro hid huu hxx
    simp [resolve_key, pyGet, hid, huu, hxx, hn, pyStr, pyRepr]

/-- C2 witness: concrete non-users document with a usable `id`. -/
theorem claim_C2_witness :
    ("ProductsBDD" ≠ "UsersBDD" ∧
      alookup ([("id", Value.str "p1")] : Doc) "id" = some (Value.str "p1") ∧
      pyStr (Value.str "p1") ≠ "" ∧ pyStr (Value.str "p1") ≠ "None") ∧
    resolve_key (fun _ => "t0") 0 "ProductsBDD" [("id", Value.str "p1")] =
      (Value.str (pyStr (Value.str "p1")), 0, []) :=
  ⟨⟨by decide, rfl, by decide, by decide⟩,
    (((claim_C2_amended (fun _ => "t0") 0 "ProductsBDD" [("id", Value.str "p1")]
      (by decide)).1) (Value.str "p1") rfl).1 ⟨by decide, by decide⟩⟩

/-- C7 counterexample: a store-level write failure is logged with the
bucket name and the exception message, but *not* with the offending
document key — the single `[ERROR]` line for a document keyed `"k1"`
does not contain `"k1"`. -/
theorem claim_C7_counterexample :
    (insertLoop (fun _ => "t0") (fun _ => UpsertResp.err "timeout")
        "ProductsBDD" [] 0 0 [[("id", Value.str "k1")]]).logs =
      ["[ERROR] Error during insertion in ProductsBDD: timeout"] ∧
    (insertLoop (fun _ => "t0") (fun _ => UpsertResp.err "timeout")
        "ProductsBDD" [] 0 0 [[("id", Value.str "k1")]]).outcomes =
      [WriteOutcome.failed] ∧
    strContains "[ERROR] Error during insertion in ProductsBDD: timeout" "k1" =
      false :=
  ⟨rfl, rfl, by decide⟩

/-- C7 (amended): a write the store fails with a non-conflict error is
caught for that document alone — it is reported as `failed`, an
`[ERROR]` line carrying the collection name and the error message (not
the document key) is printed, the collection is left exactly as if only
the successful writes had run, and every remaining document of the batch
still receives its own outcome. -/
theorem claim_C7_amended (tok : Nat → String) (resp : Nat → UpsertResp)
    (name : String) (col : Col) (g w : Nat) (docs : List Doc) :
    (insertLoop tok resp name col g w docs).outcomes =
        loopOutcomes resp w docs.length ∧
    (insertLoop tok resp name col g w docs).col =
        applyWrites col (loopWrites tok resp name g w docs) ∧
    (∀ (i : Nat) (m : String), i < docs.length →
      resp (w + i) = UpsertResp.err m →
      (insertLoop tok resp name col g w docs).outcomes.get? i =
          some WriteOutcome.failed ∧
        ("[ERROR] Error during insertion in " ++ name ++ ": " ++ m)
          ∈ (insertLoop tok resp name col g w docs).logs) := by
  refine ⟨insertLoop_outcomes tok resp name docs col g w,
    insertLoop_col tok resp name docs col g w, ?_⟩
  intro i m hi hresp
  constructor
  · rw [insertLoop_outcomes tok resp name docs col g w,
      loopOutcomes_get resp docs.length w i hi, hresp]
    rfl
  · exact insertLoop_err_log tok resp name docs col g w i m hi hresp

/-- C7 witness: one failing write among two documents — the first fails
with its error line, the second is still written. -/
theorem claim_C7_witness :
    (0 < 2 ∧
      (fun i => if i = 0 then UpsertResp.err "timeout" else UpsertResp.ok)
        (0 + 0) = UpsertResp.err "timeout") ∧
    ((insertLoop (fun _ => "t0")
        (fun i => if i = 0 then UpsertResp.err "timeout" else UpsertResp.ok)
        "ProductsBDD" [] 0 0
        [[("id", Value.str "k1")], [("id", Value.str "k2")]]).outcomes.get? 0 =
          some WriteOutcome.failed ∧
      ("[ERROR] Error during insertion in " ++ "ProductsBDD" ++ ": " ++ "timeout")
        ∈ (insertLoop (fun _ => "t0")
            (fun i => if i = 0 then UpsertResp.err "timeout" else UpsertResp.ok)
            "ProductsBDD" [] 0 0
            [[("id", Value.str "k1")], [("id", Value.str "k2")]]).logs) :=
  ⟨⟨by decide, rfl⟩,
    (claim_C7_amended (fun _ => "t0")
      (fun i => if i = 0 then UpsertResp.err "timeout" else UpsertResp.ok)
      "ProductsBDD" [] 0 0
      [[("id", Value.str "k1")], [("id", Value.str "k2")]]).2.2 0 "timeout"
      (by decide) rfl⟩

/-- C8 counterexample: after the run finishes, the script prints the
fixed line `[FINISHED] Import completed!` — identical for an empty run
and for a run importing two documents, and containing no digit at all
(in fact no line of the empty run's whole output contains a digit), so
no summary count of the run is emitted. -/
theorem claim_C8_counterexample :
    ((importMain (fun _ => "t0") (fun _ => UpsertResp.ok)
        (fun _ => BucketResp.ok) (fun _ => none) [] ⟨[], []⟩).2).getLast? =
      some "[FINISHED] Import completed!" ∧
    ((importMain (fun _ => "t0") (fun _ => UpsertResp.ok)
        (fun _ => BucketResp.ok) (fun _ => none)
        [("ProductsBDD", [[("id", Value.str "p1")], [("id", Value.str "p2")]])]
        ⟨[], []⟩).2).getLast? =
      some "[FINISHED] Import completed!" ∧
    ((importMain (fun _ => "t0") (fun _ => UpsertResp.ok)
        (fun _ => BucketResp.ok) (fun _ => none) [] ⟨[], []⟩).2).all
        (fun l => l.toList.all fun c => !c.isDigit) = true :=
  ⟨rfl, rfl, by decide⟩

/-- C8 (amended): after all source collections are imported and all
extra empty collections provisioned, the run's last output line is the
fixed completion message (which carries no count). -/
theorem claim_C8_amended (tok : Nat → String) (resp : Nat → UpsertResp)
    (bResp : String → BucketResp) (bucketAcc : String → Option String)
    (buckets_data : List (String × List Doc)) (st : Store) :
    ((importMain tok resp bResp bucketAcc buckets_data st).2).getLast? =
      some "[FINISHED] Import completed!" := by
  show (((mainLoop tok resp bResp bucketAcc st 0 0 buckets_data).logs ++
      (extrasLoop bResp
        (mainLoop tok resp bResp bucketAcc st 0 0 buckets_data).store
        ADDITIONAL_BUCKETS).2) ++ ["[FINISHED] Import completed!"]).getLast? = _
  exact List.getLast?_concat _

/-- C3 counterexample: a `UsersBDD` document without an email gets a
fresh random key on *every* run, so re-running the import duplicates it:
after the second run the users collection holds a document under the
second run's token that did not exist after the first run.  (The two
runs draw from disjoint token streams, as two processes drawing random
UUIDs do.) -/
theorem claim_C3_counterexample :
    colLookup
        (storeGet
          ((importMain (fun _ => "t2") (fun _ => UpsertResp.ok)
            (fun _ => BucketResp.ok) (fun _ => none)
            [("UsersBDD", [[("name", Value.str "Bob")]])]
            ((importMain (fun _ => "t1") (fun _ => UpsertResp.ok)
              (fun _ => BucketResp.ok) (fun _ => none)
              [("UsersBDD", [[("name", Value.str "Bob")]])] ⟨[], []⟩).1)).1)
          "UsersBDD") (Value.str "t2") =
      some [("name", Value.str "Bob")] ∧
    colLookup
        (storeGet
          ((importMain (fun _ => "t1") (fun _ => UpsertResp.ok)
            (fun _ => BucketResp.ok) (fun _ => none)
            [("UsersBDD", [[("name", Value.str "Bob")]])] ⟨[], []⟩).1)
          "UsersBDD") (Value.str "t2") = none :=
  ⟨rfl, rfl⟩

/-- C3 (amended): the full import is idempotent *provided every document
resolves a deterministic key* (users documents have an email; other
documents have a usable `id`/`uuid`/`_id`): rerunning it against the
state the first run left behind changes no bucket's contents — every
document present after run 1 is present unchanged after run 2 and no
additional documents appear — and the bucket list is unchanged, for any
pair of token streams.  Documents that need a randomly generated key are
excluded: they are re-inserted under a fresh key by the second run (see
the counterexample). -/
theorem claim_C3_amended (tok1 tok2 : Nat → String)
    (data : List (String × List Doc)) (st0 : Store)
    (hnd : (data.map Prod.fst).Nodup)
    (hdet : ∀ p ∈ data, ∀ d ∈ p.2, detKeyOk p.1 d = true) :
    ((importMain tok2 (fun _ => UpsertResp.ok) (fun _ => BucketResp.ok)
        (fun _ => none) data
        ((importMain tok1 (fun _ => UpsertResp.ok) (fun _ => BucketResp.ok)
          (fun _ => none) data st0).1)).1).buckets =
      ((importMain tok1 (fun _ => UpsertResp.ok) (fun _ => BucketResp.ok)
        (fun _ => none) data st0).1).buckets ∧
    ∀ (name : String) (k : Value),
      colLookup
          (storeGet
            ((importMain tok2 (fun _ => UpsertResp.ok) (fun _ => BucketResp.ok)
              (fun _ => none) data
              ((importMain tok1 (fun _ => UpsertResp.ok) (fun _ => BucketResp.ok)
                (fun _ => none) data st0).1)).1) name) k =
        colLookup
          (storeGet
            ((importMain tok1 (fun _ => UpsertResp.ok) (fun _ => BucketResp.ok)
              (fun _ => none) data st0).1) name) k := by
  have hrun_get : ∀ (tok : Nat → String) (st : Store) (name : String),
      storeGet ((importMain tok (fun _ => UpsertResp.ok) (fun _ => BucketResp.ok)
          (fun _ => none) data st).1) name =
        match alookup data name with
        | some ds => applyWrites (storeGet st name) (detWrites name ds)
        | none => storeGet st name := by
    intro tok st name
    show storeGet ((extrasLoop (fun _ => BucketResp.ok)
        (mainLoop tok (fun _ => UpsertResp.ok) (fun _ => BucketResp.ok)
          (fun _ => none) st 0 0 data).store ADDITIONAL_BUCKETS).1) name = _
    rw [extrasLoop_storeGet]
    exact mainLoop_get tok data hnd hdet st 0 0 name
  have hrun_buckets : ∀ (tok : Nat → String) (st : Store),
      ((importMain tok (fun _ => UpsertResp.ok) (fun _ => BucketResp.ok)
          (fun _ => none) data st).1).buckets =
        addNames (addNames st.buckets (data.map Prod.fst)) ADDITIONAL_BUCKETS := by
    intro tok st
    show ((extrasLoop (fun _ => BucketResp.ok)
        (mainLoop tok (fun _ => UpsertResp.ok) (fun _ => BucketResp.ok)
          (fun _ => none) st 0 0 data).store ADDITIONAL_BUCKETS).1).buckets = _
    rw [extrasLoop_buckets, mainLoop_buckets]
  constructor
  · rw [hrun_buckets tok2, hrun_buckets tok1]
    have h1 : ∀ n ∈ data.map Prod.fst,
        n ∈ addNames (addNames st0.buckets (data.map Prod.fst)) ADDITIONAL_BUCKETS :=
      fun n hn => (mem_addNames _ _ _).mpr
        (Or.inl ((mem_addNames _ _ _).mpr (Or.inr hn)))
    have h2 : ∀ n ∈ ADDITIONAL_BUCKETS,
        n ∈ addNames (addNames st0.buckets (data.map Prod.fst)) ADDITIONAL_BUCKETS :=
      fun n hn => (mem_addNames _ _ _).mpr (Or.inr hn)
    rw [addNames_subset_id (data.map Prod.fst) _ h1,
      addNames_subset_id ADDITIONAL_BUCKETS _ h2]
  · intro name k
    rw [hrun_get tok2]
    cases hd : alookup data name with
    | some ds =>
        simp only [hd]
        rw [hrun_get tok1]
        simp only [hd]
        exact colLookup_applyWrites_idem _ _ _
    | none =>
        simp only [hd]

/-- C3 witness: a one-collection data set whose single document has a
usable `id`; the second run leaves the first run's state intact. -/
theorem claim_C3_witness :
    (([("ProductsBDD", [[("id", Value.str "p1")]])].map
        (Prod.fst : String × List Doc → String)).Nodup ∧
      (∀ p ∈ [("ProductsBDD", [[("id", Value.str "p1")]])],
        ∀ d ∈ p.2, detKeyOk p.1 d = true)) ∧
    colLookup
        (storeGet
          ((importMain (fun _ => "t2") (fun _ => UpsertResp.ok)
            (fun _ => BucketResp.ok) (fun _ => none)
            [("ProductsBDD", [[("id", Value.str "p1")]])]
            ((importMain (fun _ => "t1") (fun _ => UpsertResp.ok)
              (fun _ => BucketResp.ok) (fun _ => none)
              [("ProductsBDD", [[("id", Value.str "p1")]])] ⟨[], []⟩).1)).1)
          "ProductsBDD") (Value.str "p1") =
      colLookup
        (storeGet
          ((importMain (fun _ => "t1") (fun _ => UpsertResp.ok)
            (fun _ => BucketResp.ok) (fun _ => none)
            [("ProductsBDD", [[("id", Value.str "p1")]])] ⟨[], []⟩).1)
          "ProductsBDD") (Value.str "p1") :=
  ⟨⟨by decide, by decide⟩,
    (claim_C3_amended (fun _ => "t1") (fun _ => "t2")
      [("ProductsBDD", [[("id", Value.str "p1")]])] ⟨[], []⟩
      (by decide) (by decide)).2 "ProductsBDD" (Value.str "p1")⟩
